import Mathlib

/-
  Shallow embedding of the `reth-light` sync pipeline.

  Sources embedded here (paths relative to the repository root):
  * `src/sync/state_sync.rs`  — `StateSync` (get_td, execute_inner,
    apply_state_changes, apply_account_changeset)
  * `src/sync/bodies_sync.rs` — `BodiesSync::run` (per-batch body insertion)
  * `src/sync/mod.rs`         — `run_sync_with_snapshots`, `save_single_snapshot`
  * `src/database/init.rs`    — `DatabaseInitializer` (restore_database,
    get_snapshot_progress)
  * `src/database/descriptor.rs` — `HeadersDescriptor::ensure_genesis`

  Machine integers (u64, U256) are modelled as `Nat`; database tables are
  modelled as association lists sorted by key, with cursor walks as ordered
  filters.  A Rust `panic!`/`unwrap` on `None` is modelled as a distinct
  outcome, never silently collapsed into an error value.
-/

/-! ## Database table primitives

MDBX cursors over a table keyed by `Nat`.  A table is an association list in
ascending key order; `walkRange lo hi` models `cursor.walk_range(lo..=hi)`,
`walkFrom k` models `cursor.walk(Some(k))`, and `seekExact` models
`cursor.seek_exact`. -/

def seekExact {α : Type} (table : List (Nat × α)) (k : Nat) : Option α :=
  (table.find? (fun e => e.1 == k)).map (·.2)

def walkRange {α : Type} (table : List (Nat × α)) (lo hi : Nat) : List (Nat × α) :=
  table.filter (fun e => lo ≤ e.1 && e.1 ≤ hi)

def walkRangeTo {α : Type} (table : List (Nat × α)) (hi : Nat) : List (Nat × α) :=
  table.filter (fun e => e.1 ≤ hi)

def walkFrom {α : Type} (table : List (Nat × α)) (k : Nat) : List (Nat × α) :=
  table.filter (fun e => k ≤ e.1)

/-- Upsert into an association-list table (`tx.put`), keeping key order. -/
def tablePut {α : Type} (table : List (Nat × α)) (k : Nat) (v : α) : List (Nat × α) :=
  match table with
  | [] => [(k, v)]
  | (k', v') :: rest =>
      if k < k' then (k, v) :: (k', v') :: rest
      else if k = k' then (k, v) :: rest
      else (k', v') :: tablePut rest k v

/-! ## Accounts and hard forks (`reth_primitives`) -/

/-- keccak-256 of the empty byte string, `KECCAK_EMPTY` in `reth_primitives`. -/
def KECCAK_EMPTY : Nat := 0xc5d2460186f7233c927e7db2dcc703c0e500b653ca82273b7bfad8045d85a470

/-- `reth_primitives::Account`: nonce, balance and optional bytecode hash. -/
structure Account where
  nonce : Nat
  balance : Nat
  bytecode_hash : Option Nat
deriving DecidableEq, Repr

/-- `Account::is_empty`: zero nonce, zero balance, and bytecode hash absent or
equal to the empty-code hash. -/
def Account.is_empty (a : Account) : Bool :=
  a.nonce == 0 && a.balance == 0 &&
    (match a.bytecode_hash with
     | none => true
     | some h => h == KECCAK_EMPTY)

/-- The slice of `reth_primitives::ChainSpec` that the embedded code reads:
the genesis difficulty and hash, and the SpuriousDragon activation block
(`chain_spec.fork(Hardfork::SpuriousDragon)` as a `ForkCondition::Block`). -/
structure ChainSpec where
  genesis_difficulty : Nat
  genesis_hash : Nat
  spurious_dragon_block : Option Nat
deriving Repr

/-- `chain_spec.fork(Hardfork::SpuriousDragon).active_at_block(block)`:
a block-activated fork is active at every block ≥ its activation block. -/
def ChainSpec.spuriousDragonActiveAt (cs : ChainSpec) (block : Nat) : Bool :=
  match cs.spurious_dragon_block with
  | none => false
  | some fork_block => decide (fork_block ≤ block)

/-! ## Changesets (`reth_executor::execution_result`) -/

/-- `AccountInfoChangeSet`: the per-address account delta of a transaction or
block. -/
inductive AccountInfoChangeSet where
  | Changed (old new_ : Account)
  | Created (new_ : Account)
  | Destroyed (old : Account)
  | NoChange
deriving DecidableEq, Repr

/-- `AccountChangeSet`: account delta plus storage delta for one address.
A storage entry is `(key, (old_value, new_value))`. -/
structure AccountChangeSet where
  account : AccountInfoChangeSet
  wipe_storage : Bool
  storage : List (Nat × Nat × Nat)
deriving Repr

/-- One entry of `ExecutionResult::tx_changesets`. -/
structure TxChangeSetEntry where
  changeset : List (Nat × AccountChangeSet)
  new_bytecodes : List (Nat × List Nat)
deriving Repr

/-- `reth_executor::execution_result::ExecutionResult`. -/
structure ExecutionResult where
  tx_changesets : List TxChangeSetEntry
  block_changesets : List (Nat × AccountInfoChangeSet)
deriving Repr

/-! ## State-database write operations

Each constructor is one `tx.put`/`tx.delete` call (or the progress save) that
`StateSync` issues on the state write transaction. -/

inductive StateOp where
  /-- `tx.put::<tables::PlainAccountState>(address, account)` -/
  | putAccount (address : Nat) (account : Account)
  /-- `tx.delete::<tables::PlainAccountState>(address, None)` -/
  | deleteAccount (address : Nat)
  /-- `tx.put::<tables::PlainStorageState>(address, StorageEntry[key, value])` -/
  | putStorage (address key value : Nat)
  /-- `tx.delete::<tables::PlainStorageState>(address, None)` (wipe) -/
  | deleteStorageAll (address : Nat)
  /-- `tx.delete::<tables::PlainStorageState>(address, Some(StorageEntry[key, old]))` -/
  | deleteStorageEntry (address key old : Nat)
  /-- `tx.put::<tables::Bytecodes>(hash, bytes)` -/
  | putBytecode (hash : Nat) (code : List Nat)
  /-- `EXECUTION.save_progress(&tx, block)` -/
  | saveProgress (block : Nat)
deriving DecidableEq, Repr

/-- `StateSync::apply_account_changeset` (src/sync/state_sync.rs, lines
228–251), as the list of writes it performs:
`Changed` always upserts; `Created` upserts unless the state-clear EIP is
active and the new account is empty; `Destroyed` deletes; `NoChange` is
a no-op. -/
def apply_account_changeset (changeset : AccountInfoChangeSet) (address : Nat)
    (has_state_clear_eip : Bool) : List StateOp :=
  match changeset with
  | .Changed _ new_ => [.putAccount address new_]
  | .Created new_ =>
      if has_state_clear_eip && new_.is_empty then []
      else [.putAccount address new_]
  | .Destroyed _ => [.deleteAccount address]
  | .NoChange => []

/-- The `wipe_storage` branch of `apply_state_changes`: after the wholesale
delete, insert each entry whose `new_value` is nonzero. -/
def storageWritesWipe (address : Nat) : List (Nat × Nat × Nat) → List StateOp
  | [] => []
  | (key, _, new_value) :: rest =>
      (if new_value ≠ 0 then [StateOp.putStorage address key new_value] else [])
        ++ storageWritesWipe address rest

/-- The non-wipe branch of `apply_state_changes`: delete the old duplicate row,
then insert the new value when nonzero. -/
def storageWritesPlain (address : Nat) : List (Nat × Nat × Nat) → List StateOp
  | [] => []
  | (key, old_value, new_value) :: rest =>
      StateOp.deleteStorageEntry address key old_value
        :: ((if new_value ≠ 0 then [StateOp.putStorage address key new_value] else [])
            ++ storageWritesPlain address rest)

/-- Per-address body of the inner loop of `apply_state_changes`: account
writes, then storage writes for that address. -/
def applyAddressChangeSet (address : Nat) (acs : AccountChangeSet)
    (spurious_dragon_active : Bool) : List StateOp :=
  apply_account_changeset acs.account address spurious_dragon_active
    ++ (if acs.wipe_storage then
          StateOp.deleteStorageAll address :: storageWritesWipe address acs.storage
        else storageWritesPlain address acs.storage)

/-- The loop over one tx-changeset's `(address, AccountChangeSet)` pairs. -/
def applyTxChangeSetAccounts (spurious_dragon_active : Bool) :
    List (Nat × AccountChangeSet) → List StateOp
  | [] => []
  | (address, acs) :: rest =>
      applyAddressChangeSet address acs spurious_dragon_active
        ++ applyTxChangeSetAccounts spurious_dragon_active rest

/-- The loop over `new_bytecodes`. -/
def applyBytecodes : List (Nat × List Nat) → List StateOp
  | [] => []
  | (hash, code) :: rest => StateOp.putBytecode hash code :: applyBytecodes rest

/-- The loop over `result.tx_changesets`. -/
def applyTxChangeSets (spurious_dragon_active : Bool) :
    List TxChangeSetEntry → List StateOp
  | [] => []
  | entry :: rest =>
      applyTxChangeSetAccounts spurious_dragon_active entry.changeset
        ++ applyBytecodes entry.new_bytecodes
        ++ applyTxChangeSets spurious_dragon_active rest

/-- The loop over `result.block_changesets`. -/
def applyBlockChangeSets (spurious_dragon_active : Bool) :
    List (Nat × AccountInfoChangeSet) → List StateOp
  | [] => []
  | (address, changeset) :: rest =>
      apply_account_changeset changeset address spurious_dragon_active
        ++ applyBlockChangeSets spurious_dragon_active rest

/-- `StateSync::apply_state_changes` (src/sync/state_sync.rs, lines
167–225), as the ordered list of writes it performs on the state write
transaction for one block's `ExecutionResult`. -/
def apply_state_changes (cs : ChainSpec) (block : Nat) (result : ExecutionResult) :
    List StateOp :=
  let spurious_dragon_active := cs.spuriousDragonActiveAt block
  applyTxChangeSets spurious_dragon_active result.tx_changesets
    ++ applyBlockChangeSets spurious_dragon_active result.block_changesets

/-! ## Headers and bodies (`reth_primitives`, `reth_db::models`) -/

/-- The slice of `reth_primitives::Header` that the embedded code reads. -/
structure Header where
  number : Nat
  difficulty : Nat
deriving DecidableEq, Repr

/-- `reth_db::models::StoredBlockBody`: a pointer into the transactions table. -/
structure StoredBlockBody where
  start_tx_id : Nat
  tx_count : Nat
deriving DecidableEq, Repr

/-! ## StateSync: total difficulty (src/sync/state_sync.rs, lines 44–56) -/

/-- `StateSync::get_td`: genesis difficulty at block 0, otherwise the sum of
the difficulties of all header rows with key ≤ `block`
(`cursor.walk_range(..=block)`). -/
def get_td (cs : ChainSpec) (headersT : List (Nat × Header)) (block : Nat) : Nat :=
  if block = 0 then cs.genesis_difficulty
  else ((walkRangeTo headersT block).map (fun e => e.2.difficulty)).sum

/-- The total-difficulty seed as the spec describes it (for comparison with
`get_td`): "If starting at block > 0, sum header difficulties from block 0
through `from-1` to seed `td`; otherwise seed with genesis difficulty." -/
def get_td_per_spec (cs : ChainSpec) (headersT : List (Nat × Header)) (block : Nat) : Nat :=
  if block = 0 then cs.genesis_difficulty
  else ((walkRangeTo headersT (block - 1)).map (fun e => e.2.difficulty)).sum

/-! ## StateSync: execute_inner (src/sync/state_sync.rs, lines 85–165) -/

/-- `reth_provider::ProviderError` variants raised by `execute_inner`. -/
inductive ProviderError where
  | BlockBody (number : Nat)
  | EndOfTransactionTable
  | TransactionsGap (missing : Nat)
deriving DecidableEq, Repr

/-- Errors with which `execute_inner` can return (`eyre` in the source). -/
inductive ExecErr where
  | provider (e : ProviderError)
  | senderRecovery
  | execution (block : Nat)
deriving DecidableEq, Repr

/-- Outcome of a fallible computation that may also panic (`unwrap`/`expect`
on `None`); a panic is a distinct outcome, not an error value. -/
inductive RunOutcome (α : Type) where
  | ok (a : α)
  | err (e : ExecErr)
  | panicked
deriving DecidableEq, Repr

/-- One element of `block_batch` in `execute_inner`:
`(header, td, body, ommers, withdrawals)`. -/
structure BatchEntry where
  header : Header
  td : Nat
  body : StoredBlockBody
  ommers : List Nat
  withdrawals : Option (List Nat)
deriving Repr

/-- Batch assembly (lines 97–109): walk the headers of the sub-range, add each
difficulty to the running `td`, require the body row
(`ProviderError::BlockBody` if absent), default ommers to empty and
withdrawals to `None`.  Returns the batch and the final `td`. -/
def assembleBatch (bodiesT : List (Nat × StoredBlockBody))
    (ommersT withdrawalsT : List (Nat × List Nat)) :
    List (Nat × Header) → Nat → Except ExecErr (List BatchEntry × Nat)
  | [], td => .ok ([], td)
  | (number, header) :: rest, td =>
      let td' := td + header.difficulty
      match seekExact bodiesT number with
      | none => .error (.provider (.BlockBody number))
      | some body =>
          let ommers := (seekExact ommersT number).getD []
          let withdrawals := seekExact withdrawalsT number
          (assembleBatch bodiesT ommersT withdrawalsT rest td').map
            (fun p => (⟨header, td', body, ommers, withdrawals⟩ :: p.1, p.2))

/-- The transaction-walk loop (lines 117–128): for each expected id in
`body.tx_id_range()`, take the next row from the walker; a missing row is
`EndOfTransactionTable`; a row whose id differs from the expected id is
`TransactionsGap` carrying the id the walker returned. -/
def txWalkLoop : List (Nat × Nat) → Nat → Nat → Except ProviderError (List Nat)
  | _, _, 0 => .ok []
  | walker, index, count + 1 =>
      match walker with
      | [] => .error .EndOfTransactionTable
      | (tx_index, t) :: rest =>
          if tx_index ≠ index then .error (.TransactionsGap tx_index)
          else (txWalkLoop rest (index + 1) count).map (fun ts => t :: ts)

/-- `let mut tx_walker = tx_cursor.walk(Some(body.start_tx_id))` followed by
the loop over `body.tx_id_range()`. -/
def recover_transactions (txT : List (Nat × Nat)) (start_tx_id tx_count : Nat) :
    Except ProviderError (List Nat) :=
  txWalkLoop (walkFrom txT start_tx_id) start_tx_id tx_count

/-- The per-block execution loop (lines 114–150): walk the block's
transactions, recover senders in parallel (`recover`, `None` = recovery
failure), run the executor (`exec`, `None` = execution error wrapped with
the block number), and collect `(block_number, changeset)` pairs. -/
def executeBlocks (txT : List (Nat × Nat)) (recover : Nat → Option Nat)
    (exec : BatchEntry → List Nat → Option ExecutionResult) :
    List BatchEntry → Except ExecErr (List (Nat × ExecutionResult))
  | [] => .ok []
  | entry :: rest =>
      let block_number := entry.header.number
      match recover_transactions txT entry.body.start_tx_id entry.body.tx_count with
      | .error e => .error (.provider e)
      | .ok transactions =>
          match transactions.mapM recover with
          | none => .error .senderRecovery
          | some senders =>
              match exec entry senders with
              | none => .error (.execution block_number)
              | some changeset =>
                  (executeBlocks txT recover exec rest).map
                    (fun cs => (block_number, changeset) :: cs)

/-- The apply loop (lines 154–158): apply each block's changeset in order. -/
def applyChangesets (cs : ChainSpec) : List (Nat × ExecutionResult) → List StateOp
  | [] => []
  | (block_number, result) :: rest =>
      apply_state_changes cs block_number result ++ applyChangesets cs rest

/-- `StateSync::execute_inner` (lines 85–165): assemble the batch over
`walkRange headersT lo hi`, execute every block, apply the changesets, then
`let latest = latest.unwrap()` — a panic when no block was executed — and
save `EXECUTION` progress before committing.  An `ok` outcome carries the
write set committed by the single state write transaction, the saved
progress, and the final running `td`. -/
def execute_inner (cs : ChainSpec) (headersT : List (Nat × Header))
    (bodiesT : List (Nat × StoredBlockBody))
    (ommersT withdrawalsT : List (Nat × List Nat)) (txT : List (Nat × Nat))
    (recover : Nat → Option Nat)
    (exec : BatchEntry → List Nat → Option ExecutionResult)
    (lo hi td : Nat) : RunOutcome (List StateOp × Nat × Nat) :=
  match assembleBatch bodiesT ommersT withdrawalsT (walkRange headersT lo hi) td with
  | .error e => .err e
  | .ok (batch, td') =>
      match executeBlocks txT recover exec batch with
      | .error e => .err e
      | .ok changesets =>
          let ops := applyChangesets cs changesets
          match changesets.getLast? with
          | none => .panicked
          | some (latest, _) => .ok (ops ++ [StateOp.saveProgress latest], latest, td')

/-! ## BodiesSync: per-batch insertion (src/sync/bodies_sync.rs, lines 51–107) -/

/-- The data of `BlockResponse::Full` that the loop body reads. -/
structure BlockData where
  number : Nat
  body : List Nat
  ommers : List Nat
  withdrawals : Option (List Nat)
deriving Repr

/-- `reth_interfaces::p2p::bodies::response::BlockResponse`. -/
inductive BlockResponse where
  | Full (block : BlockData)
  | Empty (number : Nat)
deriving Repr

/-- `BlockResponse::block_number`. -/
def BlockResponse.block_number : BlockResponse → Nat
  | .Full b => b.number
  | .Empty n => n

/-- One database call issued on the bodies write transaction inside the batch
loop of `BodiesSync::run`; `commit` stands for `tx.commit()`. -/
inductive BodiesOp where
  | appendBody (number : Nat) (body : StoredBlockBody)
  | appendTransaction (tx_id : Nat) (payload : Nat)
  | appendOmmers (number : Nat) (ommers : List Nat)
  | appendWithdrawals (number : Nat) (withdrawals : List Nat)
  | saveProgress (number : Nat)
  | commit
deriving DecidableEq, Repr

/-- The transaction-append loop (`for transaction in block.body`). -/
def appendTransactions (current_tx_id : Nat) : List Nat → List BodiesOp
  | [] => []
  | t :: rest =>
      BodiesOp.appendTransaction current_tx_id t :: appendTransactions (current_tx_id + 1) rest

/-- The `match response` arm bodies (lines 70–102): the operations issued for
one response, and the updated `current_tx_id`. -/
def insertBlockResponse (response : BlockResponse) (current_tx_id : Nat) :
    List BodiesOp × Nat :=
  match response with
  | .Full b =>
      (BodiesOp.appendBody b.number ⟨current_tx_id, b.body.length⟩
         :: (appendTransactions current_tx_id b.body
             ++ (if b.ommers.isEmpty then [] else [BodiesOp.appendOmmers b.number b.ommers])
             ++ (match b.withdrawals with
                 | some ws => if ws.isEmpty then [] else [BodiesOp.appendWithdrawals b.number ws]
                 | none => [])),
       current_tx_id + b.body.length)
  | .Empty n => ([BodiesOp.appendBody n ⟨current_tx_id, 0⟩], current_tx_id)

/-- The `for response in bodies` loop, threading `current_tx_id` and
`latest_block_number`. -/
def insertBlockResponses (latest_block_number current_tx_id : Nat) :
    List BlockResponse → List BodiesOp × Nat
  | [] => ([], latest_block_number)
  | response :: rest =>
      let p := insertBlockResponse response current_tx_id
      let q := insertBlockResponses response.block_number p.2 rest
      (p.1 ++ q.1, q.2)

/-- The body of the `while latest_block_number < tip.number` loop of
`BodiesSync::run` for one received batch (lines 52–106): compute the next
transaction id from the last stored body, open a write transaction, append
every response, save `BODIES` progress — and then reach the end of the loop
body.  No `tx.commit()` call occurs anywhere in the loop, so no `commit`
operation is ever emitted: the write transaction is dropped (hence aborted)
when the iteration ends.  `none` models the panic of
`bodies.first().unwrap()` on an empty batch. -/
def process_batch (bodies : List BlockResponse) (last_body : StoredBlockBody)
    (latest_block_number : Nat) : Option (List BodiesOp) :=
  match bodies with
  | [] => none
  | _ :: _ =>
      let current_tx_id := last_body.start_tx_id + last_body.tx_count
      let p := insertBlockResponses latest_block_number current_tx_id bodies
      some (p.1 ++ [BodiesOp.saveProgress p.2])

/-- `true` iff the operation is `tx.commit()`. -/
def BodiesOp.isCommit : BodiesOp → Bool
  | .commit => true
  | _ => false

/-- `true` iff the operation list contains `tx.commit()`. -/
def hasCommit : List BodiesOp → Bool
  | [] => false
  | op :: rest => op.isCommit || hasCommit rest

/-! ## Plain-storage table semantics (for the zero-value invariant)

`PlainStorageState` is a duplicate-sorted table; a row is a triple
`(address, key, value)`. -/

/-- Effect of one `StateSync` write on the plain-storage rows.  Account,
bytecode and progress operations leave the storage table unchanged. -/
def applyStateOp (storage : List (Nat × Nat × Nat)) : StateOp → List (Nat × Nat × Nat)
  | .putStorage address key value => (address, key, value) :: storage
  | .deleteStorageAll address => storage.filter (fun r => r.1 ≠ address)
  | .deleteStorageEntry address key old => storage.filter (fun r => r ≠ (address, key, old))
  | _ => storage

/-- Apply a list of writes in order. -/
def applyStateOps (storage : List (Nat × Nat × Nat)) : List StateOp → List (Nat × Nat × Nat)
  | [] => storage
  | op :: rest => applyStateOps (applyStateOp storage op) rest

/-! ## Orchestrator (src/sync/mod.rs) -/

/-- `snapshot_interval` in `run_sync_with_snapshots`. -/
def snapshot_interval : Nat := 100000

/-- A Rust string (`String`/`&str`), as its character list. -/
abbrev RStr : Type := List Char

/-- `DAT_GZ_EXT` (src/database/constants.rs). -/
def DAT_GZ_EXT : RStr := ".dat.gz".data

/-- `HEADERS_PREFIX` (src/database/constants.rs). -/
def headersKeyPfx : RStr := "headers-".data

/-- `BODIES_PREFIX` (src/database/constants.rs). -/
def bodiesKeyPfx : RStr := "bodies-".data

/-- `STATE_PREFIX` (src/database/constants.rs). -/
def stateKeyPfx : RStr := "state-snapshots/state-".data

/-- `format!("{pfx}{progress}{DAT_GZ_EXT}")`. -/
def snapshotKey (pfx : RStr) (progress : Nat) : RStr :=
  pfx ++ (Nat.repr progress).data ++ DAT_GZ_EXT

/-- `str::ends_with`. -/
def rstrEndsWith (s suffix_ : RStr) : Bool :=
  List.isSuffixOf suffix_ s

/-- The remote object store as the orchestrator sees it: each operation either
succeeds or returns an error that the caller receives (`eyre::Result`). -/
structure RemoteStore where
  save : RStr → Except String Unit
  listKeys : RStr → Except String (List RStr)
  deleteKey : RStr → Except String Unit

/-- The cleanup loop of `save_single_snapshot` (src/sync/mod.rs, lines 90–95):
delete every listed key that does not end with the fresh snapshot key; a
delete error propagates (`?`). -/
def deleteSuperseded (remote : RemoteStore) (snapshot_key : RStr) :
    List RStr → Except String Unit
  | [] => .ok ()
  | key :: rest =>
      if rstrEndsWith key snapshot_key then deleteSuperseded remote snapshot_key rest
      else
        match remote.deleteKey key with
        | .error e => .error e
        | .ok _ => deleteSuperseded remote snapshot_key rest

/-- `save_single_snapshot` (src/sync/mod.rs, lines 80–97): save the snapshot
under `{pfx}{progress}.dat.gz`, then list and delete superseded snapshots.
Every remote error propagates to the caller. -/
def save_single_snapshot (remote : RemoteStore) (pfx : RStr) (progress : Nat) :
    Except String Unit :=
  match remote.save (snapshotKey pfx progress) with
  | .error e => .error e
  | .ok _ =>
      match remote.listKeys pfx with
      | .error e => .error e
      | .ok entries => deleteSuperseded remote (snapshotKey pfx progress) entries

/-- The `while sync_from <= tip.number` loop of `run_sync_with_snapshots`
(src/sync/mod.rs, lines 59–75), with `state_sync.run` modelled as succeeding.
Returns the list of boundaries whose state snapshot was uploaded; a save
error propagates (`?`); `none` means the fuel ran out before the loop
finished (never the case for the fuel used in the theorems below). -/
def stateSnapshotLoop (remote : RemoteStore) (tip : Nat) :
    Nat → Nat → Option (Except String (List Nat))
  | 0, sync_from => if sync_from ≤ tip then none else some (.ok [])
  | fuel + 1, sync_from =>
      if sync_from ≤ tip then
        let sync_until := min tip (sync_from + snapshot_interval - sync_from % snapshot_interval)
        if sync_until ≠ tip ∨ (sync_until = tip ∧ tip % snapshot_interval = 0) then
          match remote.save (snapshotKey stateKeyPfx sync_until) with
          | .error e => some (.error e)
          | .ok _ =>
              (stateSnapshotLoop remote tip fuel (sync_until + 1)).map
                (fun r => r.map (fun uploads => sync_until :: uploads))
        else stateSnapshotLoop remote tip fuel (sync_until + 1)
      else some (.ok [])

/-- `run_sync_with_snapshots` (src/sync/mod.rs, lines 34–78).  The header and
body stages are modelled by their observed progress values (before/after);
the snapshot saves and the state loop are translated literally, with every
remote error propagating (`?`). -/
def run_sync_with_snapshots (remote : RemoteStore)
    (last_headers_progress new_headers_progress : Nat)
    (last_bodies_progress new_bodies_progress : Nat)
    (state_progress tip fuel : Nat) : Option (Except String (List Nat)) :=
  match (if new_headers_progress > last_headers_progress then
           save_single_snapshot remote headersKeyPfx new_headers_progress
         else .ok ()) with
  | .error e => some (.error e)
  | .ok _ =>
      match (if new_bodies_progress > last_bodies_progress then
               save_single_snapshot remote bodiesKeyPfx new_bodies_progress
             else .ok ()) with
      | .error e => some (.error e)
      | .ok _ => stateSnapshotLoop remote tip fuel (state_progress + 1)

/-! ## DatabaseInitializer (src/database/init.rs) -/

/-- `str::strip_prefix` returning `None` when `p` is not a leading part. -/
def stripLeading (s p : RStr) : Option RStr :=
  if List.isPrefixOf p s then some (List.drop p.length s) else none

/-- `str::strip_suffix` returning `None` when `p` is not a trailing part. -/
def stripTrailing (s p : RStr) : Option RStr :=
  if List.isSuffixOf p s then some (List.take (List.length s - p.length) s) else none

/-- `str::parse::<u64>()`: an optional leading `+`, then one or more ASCII
digits, value below `2^64`; anything else is a parse error (`None`). -/
def parseU64 (s : RStr) : Option Nat :=
  let digits : List Char := match s with
    | '+' :: rest => rest
    | _ => s
  if digits.isEmpty then none
  else if digits.all Char.isDigit then
    let n := digits.foldl (fun acc c => acc * 10 + (c.toNat - 48)) 0
    if n < 2 ^ 64 then some n else none
  else none

/-- `DatabaseInitializer::get_snapshot_progress` (src/database/init.rs, lines
98–103).  The source unwraps at each step, so a key that does not carry the
prefix, does not end in `.dat.gz`, or whose middle does not parse as `u64`
panics; `none` models that panic. -/
def get_snapshot_progress (pfx key : RStr) : Option Nat := do
  let k1 ← stripLeading key pfx
  let k2 ← stripTrailing k1 DAT_GZ_EXT
  parseU64 k2

/-- `snapshots.sorted_by_key(|s| s.1).rev().next()`: the maximal progress,
taking the later list entry on ties (the sort is stable and ascending). -/
def bestSnapshot : List (RStr × Nat) → Option (RStr × Nat)
  | [] => none
  | s :: rest =>
      match bestSnapshot rest with
      | none => some s
      | some b => if b.2 ≥ s.2 then some b else some s

/-- The `.map(|s| (key, self.get_snapshot_progress(key)))` pass over the
listed keys, consumed eagerly by `sorted_by_key`: a malformed key panics
inside `get_snapshot_progress`, which `none` models. -/
def snapshotProgressList (pfx : RStr) : List RStr → Option (List (RStr × Nat))
  | [] => some []
  | key :: rest =>
      match get_snapshot_progress pfx key with
      | none => none
      | some p => (snapshotProgressList pfx rest).map (fun l => (key, p) :: l)

/-- `DatabaseInitializer::restore_database` (src/database/init.rs, lines
48–76), restricted to the candidate selection it performs on the listed
keys: map every key through `get_snapshot_progress` (outer `none` = the
panic on a malformed key), pick the best snapshot, and keep it only when its
progress exceeds the local progress.  `some (some key)` is the snapshot
chosen for restore; `some none` keeps the local database. -/
def restore_database (pfx : RStr) (keys : List RStr) (progress : Nat) :
    Option (Option RStr) :=
  match snapshotProgressList pfx keys with
  | none => none
  | some snapshots =>
      some (match bestSnapshot snapshots with
            | some best => if best.2 > progress then some best.1 else none
            | none => none)

/-! ## HeadersDescriptor::ensure_genesis (src/database/descriptor.rs) -/

/-- The headers database: canonical hashes and headers, keyed by number. -/
structure HeadersDb where
  canonical : List (Nat × Nat)
  headers : List (Nat × Header)
deriving DecidableEq, Repr

/-- `reth_staged_sync::utils::init::InitDatabaseError`. -/
inductive InitError where
  | GenesisHashMismatch (expected actual : Nat)
deriving DecidableEq, Repr

/-- `HeadersDescriptor::ensure_genesis` (src/database/descriptor.rs, lines
32–54): read the first canonical row; when present, succeed without writing
iff the stored hash equals the chain spec's genesis hash and otherwise fail
with `GenesisHashMismatch [expected = configured, actual = stored]`; when
absent, write the canonical hash and the genesis header at block 0.
`genesis_header` is `chain_spec.genesis_header()` and `cs.genesis_hash` its
`hash_slow()`. -/
def ensure_genesis (cs : ChainSpec) (genesis_header : Header) (db : HeadersDb) :
    Except InitError HeadersDb :=
  match db.canonical.head? with
  | some (_, db_hash) =>
      if db_hash = cs.genesis_hash then .ok db
      else .error (.GenesisHashMismatch cs.genesis_hash db_hash)
  | none =>
      .ok ⟨tablePut db.canonical 0 cs.genesis_hash, tablePut db.headers 0 genesis_header⟩

/-! ## Helper lemmas -/

theorem hasCommit_append (a b : List BodiesOp) :
    hasCommit (a ++ b) = (hasCommit a || hasCommit b) := by
  induction a with
  | nil => simp [hasCommit]
  | cons op rest ih => simp [hasCommit, ih, Bool.or_assoc]

theorem hasCommit_appendTransactions (id : Nat) (ts : List Nat) :
    hasCommit (appendTransactions id ts) = false := by
  induction ts generalizing id with
  | nil => rfl
  | cons t rest ih => simp [appendTransactions, hasCommit, BodiesOp.isCommit, ih]

theorem hasCommit_insertBlockResponse (r : BlockResponse) (id : Nat) :
    hasCommit (insertBlockResponse r id).1 = false := by
  cases r with
  | Empty n => simp [insertBlockResponse, hasCommit, BodiesOp.isCommit]
  | Full b =>
      rcases b with ⟨n, body, ommers, w⟩
      cases w with
      | none =>
          by_cases h1 : ommers.isEmpty <;>
            simp [insertBlockResponse, hasCommit, hasCommit_append, BodiesOp.isCommit,
              hasCommit_appendTransactions, h1]
      | some ws =>
          by_cases h1 : ommers.isEmpty <;> by_cases h2 : ws.isEmpty <;>
            simp [insertBlockResponse, hasCommit, hasCommit_append, BodiesOp.isCommit,
              hasCommit_appendTransactions, h1, h2]

theorem hasCommit_insertBlockResponses (latest id : Nat) (rs : List BlockResponse) :
    hasCommit (insertBlockResponses latest id rs).1 = false := by
  induction rs generalizing latest id with
  | nil => rfl
  | cons r rest ih =>
      simp [insertBlockResponses, hasCommit_append, hasCommit_insertBlockResponse, ih]

/-! ## Claims -/

/-- C1 (counterexample): at a block where SpuriousDragon is active, a
`Changed` changeset whose new account is empty still performs the
`PlainAccountState` upsert — the claim's "no write is performed for
`Changed{new}` with `new.is_empty()`" is false on the code. -/
theorem C1_claim_counterexample :
    (ChainSpec.mk 17 0 (some 2675000)).spuriousDragonActiveAt 2675000 = true
    ∧ Account.is_empty ⟨0, 0, none⟩ = true
    ∧ apply_account_changeset (.Changed ⟨1, 5, none⟩ ⟨0, 0, none⟩) 7
        ((ChainSpec.mk 17 0 (some 2675000)).spuriousDragonActiveAt 2675000)
      = [.putAccount 7 ⟨0, 0, none⟩] := by
  exact ⟨by decide, by decide, by decide⟩

/-- C1 (amended): when SpuriousDragon is active at the block and the new
account is empty, only the `Created` variant skips the `PlainAccountState`
upsert; the `Changed` variant always upserts; and when SpuriousDragon is not
active, `Created` upserts as well. -/
theorem C1_account_changeset_upsert (cs : ChainSpec) (block address : Nat) (new_ : Account) :
    (cs.spuriousDragonActiveAt block = true → new_.is_empty = true →
        apply_account_changeset (.Created new_) address (cs.spuriousDragonActiveAt block) = [])
    ∧ (∀ old, apply_account_changeset (.Changed old new_) address
        (cs.spuriousDragonActiveAt block) = [.putAccount address new_])
    ∧ (cs.spuriousDragonActiveAt block = false →
        apply_account_changeset (.Created new_) address (cs.spuriousDragonActiveAt block)
          = [.putAccount address new_]) := by
  refine ⟨fun ha he => ?_, fun old => ?_, fun ha => ?_⟩
  · simp [apply_account_changeset, ha, he]
  · simp [apply_account_changeset]
  · simp [apply_account_changeset, ha]

/-- C1 (witness): at the SpuriousDragon activation block of a concrete chain
spec, creating the empty account performs no write. -/
theorem C1_account_changeset_upsert_witness :
    apply_account_changeset (.Created ⟨0, 0, none⟩) 7
        ((ChainSpec.mk 17 0 (some 2675000)).spuriousDragonActiveAt 2675000) = [] :=
  (C1_account_changeset_upsert ⟨17, 0, some 2675000⟩ 2675000 7 ⟨0, 0, none⟩).1
    (by decide) (by decide)

/-- C2: the batch loop of `BodiesSync::run` never issues `tx.commit()` — no
operation list it produces contains a commit — although it appends the batch
rows and saves the `BODIES` progress marker (concrete batch shown); the
write transaction is therefore dropped uncommitted before the next batch is
awaited. -/
theorem C2_bodies_batch_never_commits :
    (∀ (bodies : List BlockResponse) (last_body : StoredBlockBody) (latest : Nat),
        hasCommit ((process_batch bodies last_body latest).getD []) = false)
    ∧ process_batch [.Full ⟨1, [10, 11], [], none⟩, .Empty 2] ⟨0, 0⟩ 0
        = some [.appendBody 1 ⟨0, 2⟩, .appendTransaction 0 10, .appendTransaction 1 11,
                .appendBody 2 ⟨2, 0⟩, .saveProgress 2] := by
  constructor
  · intro bodies last_body latest
    cases bodies with
    | nil => rfl
    | cons r rest =>
        simp [process_batch, hasCommit_append, hasCommit_insertBlockResponses, hasCommit,
          BodiesOp.isCommit]
  · rfl

/-- C3: on a headers table with difficulties 5 (block 0) and 7 (block 1),
`get_td 1` walks `..=1` and returns 12 = 5 + 7, while the spec's seed (sum
through block 0 only) is 5; consequently the executor receives td 19 for
block 1 — block 1's difficulty counted twice — instead of 12, the sum of
difficulties of blocks 0 through 1. -/
theorem C3_td_seed_double_counts :
    get_td ⟨5, 0, none⟩ [(0, ⟨0, 5⟩), (1, ⟨1, 7⟩)] 1 = 12
    ∧ get_td_per_spec ⟨5, 0, none⟩ [(0, ⟨0, 5⟩), (1, ⟨1, 7⟩)] 1 = 5
    ∧ (assembleBatch [(1, ⟨41, 0⟩)] [] [] (walkRange [(0, ⟨0, 5⟩), (1, ⟨1, 7⟩)] 1 1)
          (get_td ⟨5, 0, none⟩ [(0, ⟨0, 5⟩), (1, ⟨1, 7⟩)] 1)).map
        (fun p => p.1.map (fun e => (e.header.number, e.td)))
      = .ok [(1, 19)] := by
  exact ⟨by decide, by decide, rfl⟩

theorem txWalkLoop_gap_found (count : Nat) :
    ∀ (walker : List (Nat × Nat)) (index m : Nat),
      txWalkLoop walker index count = .error (.TransactionsGap m) →
      ∃ i, i < count ∧ ∃ payload, walker.get? i = some (m, payload) ∧ m ≠ index + i := by
  induction count with
  | zero => intro walker index m h; simp [txWalkLoop] at h
  | succ n ih =>
      intro walker index m h
      cases walker with
      | nil => simp [txWalkLoop] at h
      | cons e rest =>
          rcases e with ⟨tx_index, t⟩
          by_cases hne : tx_index = index
          · simp only [txWalkLoop, hne, ne_eq, not_true_eq_false, if_false] at h
            cases hrec : txWalkLoop rest (index + 1) n with
            | ok ts => rw [hrec] at h; simp [Except.map] at h
            | error err =>
                rw [hrec] at h
                simp [Except.map] at h
                obtain ⟨i, hi, payload, hget, hm⟩ := ih rest (index + 1) m (by rw [hrec, h])
                exact ⟨i + 1, by omega, payload, by simpa using hget, by omega⟩
          · simp only [txWalkLoop, ne_eq, hne, not_false_eq_true, if_true] at h
            obtain rfl : tx_index = m := by
              simpa using h
            exact ⟨0, by omega, t, by simp, by simpa using hne⟩

/-- C4 (amended): whenever the transaction walk of `execute_inner` fails with
`TransactionsGap [missing = m]`, `m` is the id the walker actually returned
at some step `i < tx_count` — a row that is present — and it differs from
the expected id `start_tx_id + i` (the id that is actually missing); the
error is raised before any write, so the sub-range commits nothing. -/
theorem C4_transactions_gap_reports_found_id (txT : List (Nat × Nat))
    (start_tx_id tx_count m : Nat)
    (h : recover_transactions txT start_tx_id tx_count = .error (.TransactionsGap m)) :
    ∃ i, i < tx_count ∧ ∃ payload,
      (walkFrom txT start_tx_id).get? i = some (m, payload) ∧ m ≠ start_tx_id + i :=
  txWalkLoop_gap_found tx_count (walkFrom txT start_tx_id) start_tx_id m h

/-- C4 (witness): on a transactions table holding ids 41 and 43, walking two
transactions from 41 reports the present id 43, which differs from the
expected id 42. -/
theorem C4_transactions_gap_reports_found_id_witness :
    ∃ i, i < 2 ∧ ∃ payload,
      (walkFrom [(41, 0), (43, 0)] 41).get? i = some (43, payload) ∧ 43 ≠ 41 + i :=
  C4_transactions_gap_reports_found_id [(41, 0), (43, 0)] 41 2 43 rfl

/-- C4 (counterexample): when tx id 42 is absent (table holds 41 and 43), the
walk fails with `TransactionsGap [missing = 43]` — the id found, not the
missing id 42 the claim states — and `execute_inner` on a block covering
that range returns that error. -/
theorem C4_transactions_gap_counterexample :
    recover_transactions [(41, 0), (43, 0)] 41 2 = .error (.TransactionsGap 43)
    ∧ recover_transactions [(41, 0), (43, 0)] 41 2 ≠ .error (.TransactionsGap 42)
    ∧ execute_inner ⟨0, 0, none⟩ [(1, ⟨1, 7⟩)] [(1, ⟨41, 2⟩)] [] [] [(41, 0), (43, 0)]
        some (fun _ _ => some ⟨[], []⟩) 1 1 0
      = .err (.provider (.TransactionsGap 43)) := by
  refine ⟨rfl, ?_, rfl⟩
  intro h
  rw [show recover_transactions [(41, 0), (43, 0)] 41 2 = .error (.TransactionsGap 43) from rfl]
    at h
  simp at h

/-- C6 (counterexample): with the snapshot interval 100000 and tip 250000,
the state-stage loop uploads snapshots at 100000 and 200000 only — there is
no upload at the tip, contrary to the claimed upload list
[100000, 200000, 250000]. -/
theorem C6_snapshot_cadence_counterexample :
    stateSnapshotLoop ⟨fun _ => .ok (), fun _ => .ok [], fun _ => .ok ()⟩ 250000 5 1
      = some (.ok [100000, 200000])
    ∧ stateSnapshotLoop ⟨fun _ => .ok (), fun _ => .ok [], fun _ => .ok ()⟩ 250000 5 1
      ≠ some (.ok [100000, 200000, 250000]) := by
  constructor
  · rfl
  · intro h
    rw [show stateSnapshotLoop ⟨fun _ => .ok (), fun _ => .ok [], fun _ => .ok ()⟩ 250000 5 1
        = some (.ok [100000, 200000]) from rfl] at h
    simp at h

/-- C6 (amended): starting from state progress 0 with tip 250000, the
orchestrator uploads state snapshots exactly at 100000 and 200000; the tip
gets no upload because the upload-at-tip condition requires
`tip % 100000 = 0` and `250000 % 100000 = 50000`. -/
theorem C6_snapshot_cadence_amended :
    run_sync_with_snapshots ⟨fun _ => .ok (), fun _ => .ok [], fun _ => .ok ()⟩
        0 0 0 0 0 250000 5 = some (.ok [100000, 200000])
    ∧ 250000 % snapshot_interval = 50000 :=
  ⟨rfl, rfl⟩

/-- C7 (counterexample): a remote error during a snapshot save (headers save,
superseded-snapshot delete, or state-boundary save) is returned by
`run_sync_with_snapshots` / the state loop — the sync aborts instead of
continuing. -/
theorem C7_snapshot_error_counterexample :
    run_sync_with_snapshots ⟨fun _ => .error "network", fun _ => .ok [], fun _ => .ok ()⟩
        0 1 0 0 0 0 3 = some (.error "network")
    ∧ run_sync_with_snapshots
        ⟨fun _ => .ok (), fun _ => .ok ["headers-5.dat.gz".data], fun _ => .error "remote"⟩
        0 1 0 0 0 0 3 = some (.error "remote")
    ∧ stateSnapshotLoop ⟨fun _ => .error "network", fun _ => .ok [], fun _ => .ok ()⟩ 250000 5 1
      = some (.error "network") :=
  ⟨rfl, rfl, rfl⟩

/-- C7 (amended): every remote-store error raised while saving a snapshot is
propagated (`?`) by `run_sync_with_snapshots`, which returns the error
instead of continuing with the next stage or sub-range. -/
theorem C7_snapshot_error_propagates (remote : RemoteStore)
    (hp np bp nbp st tip fuel : Nat) (e : String)
    (hsave : remote.save (snapshotKey headersKeyPfx np) = .error e) (hprog : hp < np) :
    run_sync_with_snapshots remote hp np bp nbp st tip fuel = some (.error e) := by
  have hs : save_single_snapshot remote headersKeyPfx np = .error e := by
    unfold save_single_snapshot
    rw [hsave]
  simp [run_sync_with_snapshots, hprog, hs]

/-- C7 (witness): a concrete failing save aborts the run with its error. -/
theorem C7_snapshot_error_propagates_witness :
    run_sync_with_snapshots ⟨fun _ => .error "net", fun _ => .ok [], fun _ => .ok ()⟩
        2 7 0 0 0 0 3 = some (.error "net") :=
  C7_snapshot_error_propagates _ 2 7 0 0 0 0 3 "net" rfl (by decide)

/-- C8 (counterexample): a listed key whose middle does not parse as `u64`
makes `get_snapshot_progress` panic (modelled `none`), so
`restore_database` aborts instead of skipping the malformed key and
choosing the remaining well-formed key. -/
theorem C8_malformed_key_counterexample :
    restore_database stateKeyPfx
        ["state-snapshots/state-abc.dat.gz".data, "state-snapshots/state-100.dat.gz".data] 0
      = none
    ∧ get_snapshot_progress stateKeyPfx "state-snapshots/state-abc.dat.gz".data = none
    ∧ restore_database stateKeyPfx
        ["state-snapshots/state-abc.dat.gz".data, "state-snapshots/state-100.dat.gz".data] 0
      ≠ some (some "state-snapshots/state-100.dat.gz".data) := by
  exact ⟨by decide, by decide, by decide⟩

theorem snapshotProgressList_isSome (pfx : RStr) (keys : List RStr) :
    (∀ key ∈ keys, (get_snapshot_progress pfx key).isSome = true) →
    (snapshotProgressList pfx keys).isSome = true := by
  induction keys with
  | nil => intro _; rfl
  | cons key rest ih =>
      intro h
      have hk := h key (by simp)
      have hr := ih (fun k hm => h k (by simp [hm]))
      cases hg : get_snapshot_progress pfx key with
      | none => simp [hg] at hk
      | some p =>
          cases hl : snapshotProgressList pfx rest with
          | none => simp [hl] at hr
          | some l => simp [snapshotProgressList, hg, hl]

/-- C8 (amended): the restore selection succeeds only when every listed key
is well-formed; malformed keys are not skipped — they panic (see the
counterexample) — and on all-well-formed keys the initializer returns a
candidate decision. -/
theorem C8_malformed_key_panics (pfx : RStr) (keys : List RStr) (progress : Nat)
    (h : ∀ key ∈ keys, (get_snapshot_progress pfx key).isSome = true) :
    (restore_database pfx keys progress).isSome = true := by
  have hl := snapshotProgressList_isSome pfx keys h
  cases hs : snapshotProgressList pfx keys with
  | none => simp [hs] at hl
  | some snapshots => simp [restore_database, hs]

/-- C8 (witness): with two well-formed keys the selection returns a decision. -/
theorem C8_malformed_key_panics_witness :
    (restore_database stateKeyPfx
        ["state-snapshots/state-50.dat.gz".data, "state-snapshots/state-100.dat.gz".data]
        0).isSome = true :=
  C8_malformed_key_panics _ _ 0 (by decide)

/-- `true` iff every `putStorage` among the operations writes a nonzero value. -/
def storagePutsNonzero (ops : List StateOp) : Bool :=
  ops.all (fun op => match op with
    | .putStorage _ _ value => value != 0
    | _ => true)

/-- `true` iff no plain-storage row carries value zero. -/
def storageNoZeros (storage : List (Nat × Nat × Nat)) : Bool :=
  storage.all (fun r => r.2.2 != 0)

theorem storagePutsNonzero_append (a b : List StateOp) :
    storagePutsNonzero (a ++ b) = (storagePutsNonzero a && storagePutsNonzero b) := by
  simp [storagePutsNonzero, List.all_append]

theorem storagePutsNonzero_account (c : AccountInfoChangeSet) (address : Nat) (b : Bool) :
    storagePutsNonzero (apply_account_changeset c address b) = true := by
  cases c with
  | Changed old new_ => rfl
  | Created new_ =>
      by_cases h : (b && new_.is_empty) = true
      · simp [apply_account_changeset, h, storagePutsNonzero]
      · simp [apply_account_changeset, h, storagePutsNonzero]
  | Destroyed old => rfl
  | NoChange => rfl

theorem storagePutsNonzero_wipe (address : Nat) (storage : List (Nat × Nat × Nat)) :
    storagePutsNonzero (storageWritesWipe address storage) = true := by
  induction storage with
  | nil => rfl
  | cons e rest ih =>
      rcases e with ⟨key, old_value, new_value⟩
      by_cases h : new_value ≠ 0
      · simp [storageWritesWipe, h, storagePutsNonzero_append, ih, storagePutsNonzero]
        simpa [storagePutsNonzero, List.all_eq_true] using ih
      · simp [storageWritesWipe, h, ih]

theorem storagePutsNonzero_plain (address : Nat) (storage : List (Nat × Nat × Nat)) :
    storagePutsNonzero (storageWritesPlain address storage) = true := by
  induction storage with
  | nil => rfl
  | cons e rest ih =>
      rcases e with ⟨key, old_value, new_value⟩
      by_cases h : new_value ≠ 0
      · simp [storageWritesPlain, h, storagePutsNonzero_append, ih, storagePutsNonzero]
        simpa [storagePutsNonzero, List.all_eq_true] using ih
      · simp [storageWritesPlain, h, ih, storagePutsNonzero]
        simpa [storagePutsNonzero, List.all_eq_true] using ih

theorem storagePutsNonzero_address (address : Nat) (acs : AccountChangeSet) (b : Bool) :
    storagePutsNonzero (applyAddressChangeSet address acs b) = true := by
  unfold applyAddressChangeSet
  rw [storagePutsNonzero_append, storagePutsNonzero_account]
  by_cases h : acs.wipe_storage = true
  · simp [h, storagePutsNonzero, List.all_cons]
    have := storagePutsNonzero_wipe address acs.storage
    simpa [storagePutsNonzero] using this
  · simp [h]
    have := storagePutsNonzero_plain address acs.storage
    simpa [storagePutsNonzero] using this

theorem storagePutsNonzero_txAccounts (b : Bool) (l : List (Nat × AccountChangeSet)) :
    storagePutsNonzero (applyTxChangeSetAccounts b l) = true := by
  induction l with
  | nil => rfl
  | cons e rest ih =>
      rcases e with ⟨address, acs⟩
      simp [applyTxChangeSetAccounts, storagePutsNonzero_append,
        storagePutsNonzero_address, ih]

theorem storagePutsNonzero_bytecodes (l : List (Nat × List Nat)) :
    storagePutsNonzero (applyBytecodes l) = true := by
  induction l with
  | nil => rfl
  | cons e rest ih =>
      rcases e with ⟨hash, code⟩
      simp [applyBytecodes, storagePutsNonzero, List.all_cons] at ih ⊢
      exact ih

theorem storagePutsNonzero_txChangeSets (b : Bool) (l : List TxChangeSetEntry) :
    storagePutsNonzero (applyTxChangeSets b l) = true := by
  induction l with
  | nil => rfl
  | cons e rest ih =>
      simp [applyTxChangeSets, storagePutsNonzero_append, storagePutsNonzero_txAccounts,
        storagePutsNonzero_bytecodes, ih]

theorem storagePutsNonzero_blockChangeSets (b : Bool) (l : List (Nat × AccountInfoChangeSet)) :
    storagePutsNonzero (applyBlockChangeSets b l) = true := by
  induction l with
  | nil => rfl
  | cons e rest ih =>
      rcases e with ⟨address, c⟩
      simp [applyBlockChangeSets, storagePutsNonzero_append, storagePutsNonzero_account, ih]

theorem storagePutsNonzero_state_changes (cs : ChainSpec) (block : Nat)
    (result : ExecutionResult) :
    storagePutsNonzero (apply_state_changes cs block result) = true := by
  unfold apply_state_changes
  rw [storagePutsNonzero_append, storagePutsNonzero_txChangeSets,
    storagePutsNonzero_blockChangeSets]
  rfl

theorem storageNoZeros_filter (p : Nat × Nat × Nat → Bool) (storage : List (Nat × Nat × Nat))
    (h : storageNoZeros storage = true) : storageNoZeros (storage.filter p) = true := by
  simp only [storageNoZeros, List.all_eq_true] at h ⊢
  exact fun r hr => h r (List.mem_of_mem_filter hr)

theorem applyStateOps_no_zeros (ops : List StateOp) :
    ∀ storage : List (Nat × Nat × Nat),
      storagePutsNonzero ops = true → storageNoZeros storage = true →
      storageNoZeros (applyStateOps storage ops) = true := by
  induction ops with
  | nil => intro storage _ h2; exact h2
  | cons op rest ih =>
      intro storage h1 h2
      have hparts := h1
      simp only [storagePutsNonzero, List.all_cons, Bool.and_eq_true] at hparts
      obtain ⟨hop, hrest⟩ := hparts
      have hrest' : storagePutsNonzero rest = true := hrest
      cases op with
      | putStorage a k v =>
          refine ih _ hrest' ?_
          have hv : (v != 0) = true := by simpa using hop
          simp only [applyStateOp, storageNoZeros, List.all_cons, Bool.and_eq_true]
          exact ⟨hv, by simpa [storageNoZeros] using h2⟩
      | deleteStorageAll a => exact ih _ hrest' (storageNoZeros_filter _ _ h2)
      | deleteStorageEntry a k o => exact ih _ hrest' (storageNoZeros_filter _ _ h2)
      | putAccount a acct => exact ih _ hrest' h2
      | deleteAccount a => exact ih _ hrest' h2
      | putBytecode hsh code => exact ih _ hrest' h2
      | saveProgress n => exact ih _ hrest' h2

/-- C5: every storage insertion that `apply_state_changes` performs — in both
the `wipe_storage` branch and the per-entry delete-then-put branch — writes
a nonzero value, and a `PlainStorageState` table with no zero-valued rows
still has none after the block's writes are applied. -/
theorem C5_no_zero_storage_values (cs : ChainSpec) (block : Nat) (result : ExecutionResult)
    (storage : List (Nat × Nat × Nat)) (h : storageNoZeros storage = true) :
    storagePutsNonzero (apply_state_changes cs block result) = true
    ∧ storageNoZeros (applyStateOps storage (apply_state_changes cs block result)) = true := by
  have hp := storagePutsNonzero_state_changes cs block result
  exact ⟨hp, applyStateOps_no_zeros _ _ hp h⟩

/-- C5 (witness): a changeset exercising both storage branches (a wipe with a
zero and a nonzero new value, and a plain delete-then-put with a zero and a
nonzero new value) leaves a zero-free table zero-free. -/
theorem C5_no_zero_storage_values_witness :
    storagePutsNonzero (apply_state_changes ⟨0, 0, some 0⟩ 1
        ⟨[⟨[(1, ⟨.NoChange, false, [(2, 5, 0), (3, 0, 9)]⟩),
            (2, ⟨.NoChange, true, [(6, 0, 0), (7, 0, 8)]⟩)], [(11, [1, 2])]⟩],
         [(4, .Destroyed ⟨1, 1, none⟩)]⟩) = true
    ∧ storageNoZeros (applyStateOps [(1, 2, 5)]
        (apply_state_changes ⟨0, 0, some 0⟩ 1
          ⟨[⟨[(1, ⟨.NoChange, false, [(2, 5, 0), (3, 0, 9)]⟩),
              (2, ⟨.NoChange, true, [(6, 0, 0), (7, 0, 8)]⟩)], [(11, [1, 2])]⟩],
           [(4, .Destroyed ⟨1, 1, none⟩)]⟩)) = true :=
  C5_no_zero_storage_values _ _ _ _ (by decide)

/-- C9: `ensure_genesis` on a headers database whose first canonical row
exists fails with `GenesisHashMismatch [expected = configured hash,
actual = stored hash]` exactly when the stored hash differs, succeeds
without writing when they agree, and on an empty canonical table writes the
canonical genesis hash and genesis header at block 0. -/
theorem C9_ensure_genesis (cs : ChainSpec) (genesis_header : Header) (db : HeadersDb) :
    (∀ n h rest, db.canonical = (n, h) :: rest →
        (h ≠ cs.genesis_hash →
            ensure_genesis cs genesis_header db
              = .error (.GenesisHashMismatch cs.genesis_hash h))
        ∧ (h = cs.genesis_hash → ensure_genesis cs genesis_header db = .ok db))
    ∧ (db.canonical = [] →
        ensure_genesis cs genesis_header db
          = .ok ⟨[(0, cs.genesis_hash)], tablePut db.headers 0 genesis_header⟩) := by
  constructor
  · intro n h rest hc
    constructor
    · intro hne
      simp [ensure_genesis, hc, hne]
    · intro he
      simp [ensure_genesis, hc, he]
  · intro hc
    simp [ensure_genesis, hc, tablePut]

/-- C9 (witness): a stored hash 77 against configured hash 99 is rejected
with `GenesisHashMismatch [expected = 99, actual = 77]`; hash 99 is
accepted without writing; an empty table gets the genesis rows. -/
theorem C9_ensure_genesis_witness :
    ensure_genesis ⟨17, 99, none⟩ ⟨0, 17⟩ ⟨[(0, 77)], []⟩
      = .error (.GenesisHashMismatch 99 77)
    ∧ ensure_genesis ⟨17, 99, none⟩ ⟨0, 17⟩ ⟨[(0, 99)], []⟩ = .ok ⟨[(0, 99)], []⟩
    ∧ ensure_genesis ⟨17, 99, none⟩ ⟨0, 17⟩ ⟨[], []⟩
      = .ok ⟨[(0, 99)], [(0, ⟨0, 17⟩)]⟩ :=
  ⟨((C9_ensure_genesis ⟨17, 99, none⟩ ⟨0, 17⟩ ⟨[(0, 77)], []⟩).1 0 77 [] rfl).1 (by decide),
   ((C9_ensure_genesis ⟨17, 99, none⟩ ⟨0, 17⟩ ⟨[(0, 99)], []⟩).1 0 99 [] rfl).2 rfl,
   (C9_ensure_genesis ⟨17, 99, none⟩ ⟨0, 17⟩ ⟨[], []⟩).2 rfl⟩

/-- C10: `execute_inner` over a sub-range whose headers walk is empty reaches
`latest.unwrap()` with `None` and panics (it does not return an error); and
whenever it returns `Ok`, the headers walk was nonempty (at least one block
was executed) and the committed write set ends with the `EXECUTION`
progress save for the last executed block — progress and mutations share
the one write transaction. -/
theorem C10_execute_inner_requires_blocks (cs : ChainSpec) (headersT : List (Nat × Header))
    (bodiesT : List (Nat × StoredBlockBody)) (ommersT withdrawalsT : List (Nat × List Nat))
    (txT : List (Nat × Nat)) (recover : Nat → Option Nat)
    (exec : BatchEntry → List Nat → Option ExecutionResult) (lo hi td : Nat) :
    (walkRange headersT lo hi = [] →
        execute_inner cs headersT bodiesT ommersT withdrawalsT txT recover exec lo hi td
          = .panicked)
    ∧ (∀ ops latest td2,
        execute_inner cs headersT bodiesT ommersT withdrawalsT txT recover exec lo hi td
          = .ok (ops, latest, td2) →
        walkRange headersT lo hi ≠ []
        ∧ ∃ muts, ops = muts ++ [StateOp.saveProgress latest]) := by
  constructor
  · intro hempty
    unfold execute_inner
    rw [hempty]
    rfl
  · intro ops latest td2 hok
    constructor
    · intro hempty
      have hp : execute_inner cs headersT bodiesT ommersT withdrawalsT txT recover exec
          lo hi td = .panicked := by
        unfold execute_inner
        rw [hempty]
        rfl
      rw [hp] at hok
      exact RunOutcome.noConfusion hok
    · unfold execute_inner at hok
      cases ha : assembleBatch bodiesT ommersT withdrawalsT (walkRange headersT lo hi) td with
      | error e => rw [ha] at hok; simp at hok
      | ok p =>
          rcases p with ⟨batch, td3⟩
          rw [ha] at hok
          dsimp only at hok
          cases hb : executeBlocks txT recover exec batch with
          | error e => rw [hb] at hok; simp at hok
          | ok changesets =>
              rw [hb] at hok
              dsimp only at hok
              cases hc : changesets.getLast? with
              | none => rw [hc] at hok; simp at hok
              | some pr =>
                  rcases pr with ⟨lb, res⟩
                  rw [hc] at hok
                  simp only [RunOutcome.ok.injEq, Prod.mk.injEq] at hok
                  obtain ⟨h1, h2, h3⟩ := hok
                  exact ⟨applyChangesets cs changesets, by rw [← h1, h2]⟩

/-- C10 (witness): an empty headers table makes `execute_inner` panic. -/
theorem C10_execute_inner_requires_blocks_witness :
    execute_inner ⟨0, 0, none⟩ [] [] [] [] [] some (fun _ _ => some ⟨[], []⟩) 1 5 0
      = .panicked :=
  (C10_execute_inner_requires_blocks ⟨0, 0, none⟩ [] [] [] [] [] some
    (fun _ _ => some ⟨[], []⟩) 1 5 0).1 rfl
